import Mathlib

/-!
Verification of sl1codes/codes.py: the SL1 error-code registry.

The Python module defines an IntEnum of error categories, a Code value
class (range-checked construction, derived numeric identifier, ordering
and equality by identifier), a Codes registry base class with four dump
generators, and a unique_codes validator.  Everything here is a direct
shallow embedding of that module: machine ints are Lean Int, a raised
ValueError is the error branch of Except, a TextIO sink is the String
the dump concatenates onto it, and a registry is the insertion-ordered
list of (attribute name, Code) pairs that vars(cls) enumerates.
-/

namespace SL1

/-- Class is the Prusa error category IntEnum: five fixed members with
integer values 1..5. -/
inductive Class where
  | MECHANICAL
  | TEMPERATURE
  | ELECTRICAL
  | CONNECTIVITY
  | SYSTEM
deriving DecidableEq, Repr

/-- The integer value of each Class member, as declared in the enum. -/
def Class.value : Class → Int
  | .MECHANICAL => 1
  | .TEMPERATURE => 2
  | .ELECTRICAL => 3
  | .CONNECTIVITY => 4
  | .SYSTEM => 5

/-- Code holds error code information.  The Python object stores the
category (used only through its integer value), the sub-code and the
optional message; we store the category by its integer value, which is
all Code.__init__ inspects (cls.value) and all the code property uses
(self._category.value). -/
structure Code where
  categoryValue : Int
  subcode : Int
  message : Option String
deriving DecidableEq, Repr

/-- Code.__init__: validates the category value against [0, 9] and the
sub-code against [0, 99], raising ValueError (modelled as the error
branch) when either is out of range. -/
def Code.init (clsValue : Int) (code : Int) (message : Option String) :
    Except String Code :=
  if clsValue < 0 ∨ clsValue > 9 then
    .error ("Error class " ++ toString clsValue ++ " out of range")
  else if code < 0 ∨ code > 99 then
    .error ("Error code " ++ toString code ++ " out of range")
  else
    .ok ⟨clsValue, code, message⟩

/-- The code property: the derived identifier
self._category.value * 100 + self._code. -/
def Code.code (c : Code) : Int :=
  c.categoryValue * 100 + c.subcode

/-- A Python value a Code may be compared against: another Code, or a
value of some unrelated type (int, str).  Only the Code alternative is
recognised by Code.__eq__ and Code.__lt__. -/
inductive PyVal where
  | codeVal : Code → PyVal
  | intVal : Int → PyVal
  | strVal : String → PyVal
deriving DecidableEq, Repr

/-- Whether a PyVal is an instance of Code (the isinstance test in
Code.__eq__ and Code.__lt__). -/
def PyVal.isCode : PyVal → Bool
  | .codeVal _ => true
  | _ => false

/-- Code.__eq__: self.code == other.code when other is a Code, else
NotImplemented (modelled as none). -/
def Code.dunderEq (self : Code) : PyVal → Option Bool
  | .codeVal other => some (self.code == other.code)
  | _ => none

/-- Code.__lt__: self.code < other.code when other is a Code, else
NotImplemented (modelled as none). -/
def Code.dunderLt (self : Code) : PyVal → Option Bool
  | .codeVal other => some (decide (self.code < other.code))
  | _ => none

/-- The behaviour of the Python expression a == b for a Code a.  When
Code.__eq__ returns NotImplemented the reflected int.__eq__ / str.__eq__
does not recognise Code and also returns NotImplemented, so Python falls
back to object identity; a Code instance is never the same object as an
int or str, so the fallback yields False.  Equality never raises. -/
def pyEq (a : Code) (b : PyVal) : Bool :=
  match a.dunderEq b with
  | some r => r
  | none => false

/-- The behaviour of the Python expression a < b for a Code a.  When
Code.__lt__ returns NotImplemented the reflected operand does not handle
Code either, so Python raises TypeError (modelled as the error branch). -/
def pyLt (a : Code) (b : PyVal) : Except String Bool :=
  match a.dunderLt b with
  | some r => .ok r
  | none => .error "TypeError: unsupported operand types for <"

/-- A registry, as enumerated by Codes.get_codes: the insertion-ordered
mapping from attribute name to Code value. -/
abbrev Registry := List (String × Code)

/-- Truthiness of the optional message, as tested by the Python
condition if code.message: None and the empty string are falsy. -/
def strTruthy : Option String → Bool
  | some m => m != ""
  | none => false

/-- One JSON value of the dump_json object: the code field and the
message field (none rendering as null). -/
abbrev JEntry := Int × Option String

/-- The behaviour of Python str.lower on a name: each character
lowercased in place. -/
def pyLower (s : String) : String :=
  String.mk (s.data.map Char.toLower)

/-- Insertion into a Python dict: a fresh key is appended at the end,
an existing key keeps its position and has its value replaced. -/
def dictUpd (d : List (String × JEntry)) (k : String) (v : JEntry) :
    List (String × JEntry) :=
  if d.any (fun p => p.1 == k) then
    d.map (fun p => if p.1 == k then (p.1, v) else p)
  else
    d ++ [(k, v)]

/-- The dict comprehension in Codes.dump_json:
name.lower() mapped to the object with fields code and message, built
left to right with Python dict semantics. -/
def dump_json_obj (entries : Registry) : List (String × JEntry) :=
  entries.foldl (fun d p => dictUpd d (pyLower p.1) (p.2.code, p.2.message)) []

/-- The loop in Codes.dump_cpp_enum: each iteration performs one
file.write of the member line, semicolon-terminated. -/
def enumEntryWrites : Registry → List String
  | [] => []
  | (name, c) :: rest =>
    ("\t" ++ name ++ " = " ++ toString c.code ++ ";\n") :: enumEntryWrites rest

/-- Codes.dump_cpp_enum: the concatenation of every file.write the
method performs, in order. -/
def dump_cpp_enum (entries : Registry) : String :=
  "// Generated error code enum\n" ++
  "enum class Errors \x7b\n" ++
  String.join (enumEntryWrites entries) ++
  "\x7d;\n"

/-- The loop in Codes.dump_cpp_messages: an iteration writes its line
exactly when if code.message: is taken, i.e. the message is present and
non-empty; otherwise it writes nothing. -/
def messagesEntryWrites : Registry → List String
  | [] => []
  | (_, c) :: rest =>
    (match c.message with
     | some m =>
       if m = "" then []
       else ["\t\x7b" ++ toString c.code ++ ", \"" ++ m ++ "\"\x7d\n"]
     | none => []) ++ messagesEntryWrites rest

/-- Codes.dump_cpp_messages: the full text written to the sink. -/
def dump_cpp_messages (entries : Registry) : String :=
  "// Generated error code to message mapping\n" ++
  "static QMap<int, QString> error_messages\x7b\n" ++
  String.join (messagesEntryWrites entries) ++
  "\x7d;\n"

/-- The loop in Codes.dump_cpp_ts: an iteration writes its tr line
exactly when if code.message: is taken. -/
def tsEntryWrites : Registry → List String
  | [] => []
  | (_, c) :: rest =>
    (match c.message with
     | some m =>
       if m = "" then []
       else ["tr(\"" ++ m ++ "\");\n"]
     | none => []) ++ tsEntryWrites rest

/-- Codes.dump_cpp_ts: the full text written to the sink. -/
def dump_cpp_ts (entries : Registry) : String :=
  "// Generated translation string definitions for all defined error messages\n" ++
  String.join (tsEntryWrites entries)

/-- The loop of the unique_codes decorator, carrying the used set. -/
def unique_codes_go : Registry → List Int → Except String Unit
  | [], _ => .ok ()
  | (name, code) :: rest, used =>
    if code.code ∈ used then
      .error ("Code " ++ name ++ " with value " ++ toString code.code ++
        " is deficit!")
    else
      unique_codes_go rest (code.code :: used)

/-- unique_codes: raises ValueError on the first duplicate identifier,
otherwise returns the registry it was given, unmodified. -/
def unique_codes (entries : Registry) : Except String Registry :=
  match unique_codes_go entries [] with
  | .ok _ => .ok entries
  | .error e => .error e

/-- The line dump_cpp_messages writes for a message-bearing entry. -/
def msgLine (c : Code) : String :=
  "\t\x7b" ++ toString c.code ++ ", \"" ++ c.message.getD "" ++ "\"\x7d\n"

/-- The line dump_cpp_ts writes for a message-bearing entry. -/
def tsLine (c : Code) : String :=
  "tr(\"" ++ c.message.getD "" ++ "\");\n"

/-- Characterisation of successful construction: Code.init returns ok
exactly on in-range inputs, and then stores its three arguments. -/
theorem Code.init_ok_iff (v sub : Int) (msg : Option String) (c : Code) :
    Code.init v sub msg = .ok c ↔
      0 ≤ v ∧ v ≤ 9 ∧ 0 ≤ sub ∧ sub ≤ 99 ∧ c = ⟨v, sub, msg⟩ := by
  constructor
  · intro hc
    unfold Code.init at hc
    split at hc
    · cases hc
    · split at hc
      · cases hc
      · rename_i h1 h2
        injection hc with hc
        exact ⟨by omega, by omega, by omega, by omega, hc.symm⟩
  · rintro ⟨h0, h9, hs0, hs99, rfl⟩
    unfold Code.init
    rw [if_neg (by omega), if_neg (by omega)]

/-- Claim C2: every Code built by the constructor from a category value
in [0,9] and a sub-code in [0,99] has identifier exactly
category value * 100 + sub-code; the five fixed categories have values
1 through 5, so a Code built from any of them has identifier in
[100, 999]. -/
theorem code_identifier_formula_and_range :
    (∀ (v sub : Int) (msg : Option String) (c : Code),
        Code.init v sub msg = .ok c → c.code = v * 100 + sub) ∧
    (∀ cl : Class, 1 ≤ cl.value ∧ cl.value ≤ 5) ∧
    (∀ (cl : Class) (sub : Int) (msg : Option String) (c : Code),
        Code.init cl.value sub msg = .ok c →
          100 ≤ c.code ∧ c.code ≤ 999) := by
  have hval : ∀ cl : Class, 1 ≤ cl.value ∧ cl.value ≤ 5 := by
    intro cl; cases cl <;> exact ⟨by decide, by decide⟩
  refine ⟨?_, hval, ?_⟩
  · intro v sub msg c h
    obtain ⟨_, _, _, _, rfl⟩ := (Code.init_ok_iff v sub msg c).mp h
    rfl
  · intro cl sub msg c h
    obtain ⟨h0, h9, hs0, hs99, rfl⟩ := (Code.init_ok_iff _ _ _ _).mp h
    have hv := hval cl
    simp only [Code.code]
    omega

/-- Witness for Claim C2 at category MECHANICAL (value 1), sub-code 2. -/
theorem code_identifier_formula_and_range_witness :
    (⟨1, 2, none⟩ : Code).code = 1 * 100 + 2 ∧
    (100 ≤ (⟨1, 2, none⟩ : Code).code ∧ (⟨1, 2, none⟩ : Code).code ≤ 999) :=
  ⟨code_identifier_formula_and_range.1 1 2 none ⟨1, 2, none⟩ rfl,
   code_identifier_formula_and_range.2.2 Class.MECHANICAL 2 none
     ⟨1, 2, none⟩ rfl⟩

/-- Claim C3: construction fails exactly when the category value is
outside [0,9] or the sub-code is outside [0,99], and succeeds on every
in-range pair with any message, including an absent one. -/
theorem code_init_range_check (v sub : Int) (msg : Option String) :
    ((∃ c, Code.init v sub msg = .ok c) ↔
      (0 ≤ v ∧ v ≤ 9 ∧ 0 ≤ sub ∧ sub ≤ 99)) ∧
    ((∃ e, Code.init v sub msg = .error e) ↔
      (v < 0 ∨ 9 < v ∨ sub < 0 ∨ 99 < sub)) := by
  have hok : (∃ c, Code.init v sub msg = .ok c) ↔
      (0 ≤ v ∧ v ≤ 9 ∧ 0 ≤ sub ∧ sub ≤ 99) := by
    constructor
    · rintro ⟨c, hc⟩
      obtain ⟨h0, h9, hs0, hs99, _⟩ := (Code.init_ok_iff v sub msg c).mp hc
      exact ⟨h0, h9, hs0, hs99⟩
    · intro h
      exact ⟨⟨v, sub, msg⟩, (Code.init_ok_iff v sub msg _).mpr
        ⟨h.1, h.2.1, h.2.2.1, h.2.2.2, rfl⟩⟩
  refine ⟨hok, ?_, ?_⟩
  · rintro ⟨e, he⟩
    by_contra hcon
    obtain ⟨c, hc⟩ := hok.mpr (by omega)
    rw [he] at hc
    cases hc
  · intro h
    rcases hx : Code.init v sub msg with e | c
    · exact ⟨e, rfl⟩
    · have := hok.mp ⟨c, hx⟩
      omega

/-- Claim C4: two Codes are equal exactly when their identifiers are
equal, whatever their categories, sub-codes and messages are. -/
theorem code_eq_iff_identifier_eq (a b : Code) :
    pyEq a (.codeVal b) = true ↔ a.code = b.code := by
  simp [pyEq, Code.dunderEq]

/-- Claim C5: Code-to-Code comparison is by identifier and is a strict
total order: irreflexive, asymmetric, transitive, and total up to
identifier equality. -/
theorem code_lt_strict_total_order (a b c : Code) :
    (pyLt a (.codeVal b) = .ok true ↔ a.code < b.code) ∧
    pyLt a (.codeVal a) = .ok false ∧
    (pyLt a (.codeVal b) = .ok true → pyLt b (.codeVal a) = .ok false) ∧
    (pyLt a (.codeVal b) = .ok true → pyLt b (.codeVal c) = .ok true →
      pyLt a (.codeVal c) = .ok true) ∧
    (pyLt a (.codeVal b) = .ok true ∨ pyEq a (.codeVal b) = true ∨
      pyLt b (.codeVal a) = .ok true) := by
  simp only [pyLt, pyEq, Code.dunderLt, Code.dunderEq, Except.ok.injEq,
    decide_eq_true_eq, decide_eq_false_iff_not, beq_iff_eq]
  exact ⟨trivial, lt_irrefl _, fun h => lt_asymm h,
    fun h1 h2 => lt_trans h1 h2, lt_trichotomy _ _⟩

/-- Witness for Claim C5: transitivity applied at identifiers
101 < 102 < 103. -/
theorem code_lt_strict_total_order_witness :
    pyLt (⟨1, 1, none⟩ : Code) (.codeVal ⟨1, 3, none⟩) = .ok true :=
  (code_lt_strict_total_order ⟨1, 1, none⟩ ⟨1, 2, none⟩ ⟨1, 3, none⟩).2.2.2.1
    rfl rfl

/-- Claim C9 counterexample: equality-testing a Code against a non-Code
value yields False (Code.__eq__ returns NotImplemented, the reflected
comparison does too, and the identity fallback of == is False), rather
than surfacing a type error. -/
theorem code_eq_non_code_counterexample :
    pyEq (⟨1, 1, none⟩ : Code) (.intVal 5) = false := rfl

/-- Claim C9 (amended): ordering a Code against a non-Code raises
TypeError, but equality-testing a Code against a non-Code silently
evaluates to False instead of raising. -/
theorem code_cmp_non_code (c : Code) (v : PyVal) (h : v.isCode = false) :
    pyLt c v = .error "TypeError: unsupported operand types for <" ∧
    pyEq c v = false := by
  cases v with
  | codeVal d => simp [PyVal.isCode] at h
  | intVal n => exact ⟨rfl, rfl⟩
  | strVal s => exact ⟨rfl, rfl⟩

/-- Witness for Claim C9 at the integer value 5. -/
theorem code_cmp_non_code_witness :
    PyVal.isCode (.intVal 5) = false ∧
    (pyLt ⟨1, 1, none⟩ (.intVal 5) =
        .error "TypeError: unsupported operand types for <" ∧
      pyEq ⟨1, 1, none⟩ (.intVal 5) = false) :=
  ⟨rfl, code_cmp_non_code ⟨1, 1, none⟩ (.intVal 5) rfl⟩

/-- The validator loop succeeds exactly when the identifiers of the
remaining entries are pairwise distinct and avoid the used set. -/
theorem unique_codes_go_ok_iff (l : Registry) :
    ∀ used : List Int, (∃ u, unique_codes_go l used = .ok u) ↔
      ((l.map fun p => p.2.code).Nodup ∧
        ∀ x ∈ l.map fun p => p.2.code, x ∉ used) := by
  induction l with
  | nil => intro used; simp [unique_codes_go]
  | cons hd tl ih =>
    intro used
    obtain ⟨name, code⟩ := hd
    simp only [unique_codes_go, List.map_cons, List.nodup_cons,
      List.mem_cons]
    split
    · rename_i hmem
      constructor
      · rintro ⟨u, hu⟩; cases hu
      · rintro ⟨_, hall⟩
        exact absurd hmem (hall _ (Or.inl rfl))
    · rename_i hmem
      rw [ih (code.code :: used)]
      constructor
      · rintro ⟨hnd, hall⟩
        refine ⟨⟨fun hc => hall _ hc (List.mem_cons_self _ _), hnd⟩, ?_⟩
        rintro x (rfl | hx)
        · exact hmem
        · exact fun hxu => hall x hx (List.mem_cons_of_mem _ hxu)
      · rintro ⟨⟨hn, hnd⟩, hall⟩
        refine ⟨hnd, fun x hx hxm => ?_⟩
        rcases List.mem_cons.mp hxm with rfl | hxu
        · exact hn hx
        · exact hall x (Or.inr hx) hxu

/-- Claim C1: unique_codes raises exactly when two entries share a
derived identifier, and on success returns the registry it was given,
unchanged. -/
theorem unique_codes_spec (entries : Registry) :
    ((∃ e, unique_codes entries = .error e) ↔
      ¬ (entries.map fun p => p.2.code).Nodup) ∧
    (∀ r, unique_codes entries = .ok r → r = entries) := by
  have hok : (∃ u, unique_codes_go entries [] = .ok u) ↔
      (entries.map fun p => p.2.code).Nodup := by
    rw [unique_codes_go_ok_iff]
    simp
  rcases hgo : unique_codes_go entries [] with e | u
  · have hun : unique_codes entries = .error e := by
      unfold unique_codes; rw [hgo]
    refine ⟨⟨fun _ hnd => ?_, fun _ => ⟨e, hun⟩⟩, fun r hr => ?_⟩
    · obtain ⟨u, hu⟩ := hok.mpr hnd
      rw [hgo] at hu
      cases hu
    · rw [hun] at hr
      cases hr
  · have hun : unique_codes entries = .ok entries := by
      unfold unique_codes; rw [hgo]
    refine ⟨⟨?_, fun hnd => absurd (hok.mp ⟨u, hgo⟩) hnd⟩, fun r hr => ?_⟩
    · rintro ⟨e, he⟩
      rw [hun] at he
      cases he
    · rw [hun] at hr
      injection hr with h
      exact h.symm

/-- Witness for Claim C1: a registry with distinct identifiers 101 and
205 validates and comes back unchanged. -/
theorem unique_codes_spec_witness :
    unique_codes [("FOO", ⟨1, 1, none⟩), ("BAR", ⟨2, 5, none⟩)] =
      .ok [("FOO", ⟨1, 1, none⟩), ("BAR", ⟨2, 5, none⟩)] ∧
    ([("FOO", (⟨1, 1, none⟩ : Code)), ("BAR", ⟨2, 5, none⟩)] : Registry) =
      [("FOO", ⟨1, 1, none⟩), ("BAR", ⟨2, 5, none⟩)] :=
  ⟨rfl, (unique_codes_spec [("FOO", ⟨1, 1, none⟩), ("BAR", ⟨2, 5, none⟩)]).2
    [("FOO", ⟨1, 1, none⟩), ("BAR", ⟨2, 5, none⟩)] rfl⟩

/-- The enum loop writes exactly one member line per entry. -/
theorem enumEntryWrites_eq (entries : Registry) :
    enumEntryWrites entries =
      entries.map fun p => "\t" ++ p.1 ++ " = " ++ toString p.2.code ++ ";\n" := by
  induction entries with
  | nil => rfl
  | cons hd tl ih =>
    obtain ⟨name, c⟩ := hd
    simp [enumEntryWrites, ih]

/-- The message-map loop writes its line exactly for the entries whose
message passes the Python truthiness test. -/
theorem messagesEntryWrites_eq (entries : Registry) :
    messagesEntryWrites entries =
      (entries.filter fun p => strTruthy p.2.message).map fun p =>
        msgLine p.2 := by
  induction entries with
  | nil => rfl
  | cons hd tl ih =>
    obtain ⟨name, c⟩ := hd
    cases hm : c.message with
    | none =>
      simp [messagesEntryWrites, List.filter_cons, strTruthy, hm, ih]
    | some m =>
      by_cases he : m = ""
      · subst he
        simp [messagesEntryWrites, List.filter_cons, strTruthy, hm, ih]
      · simp [messagesEntryWrites, List.filter_cons, strTruthy, hm, he, ih,
          msgLine]

/-- The translation-stub loop writes its line exactly for the entries
whose message passes the Python truthiness test. -/
theorem tsEntryWrites_eq (entries : Registry) :
    tsEntryWrites entries =
      (entries.filter fun p => strTruthy p.2.message).map fun p =>
        tsLine p.2 := by
  induction entries with
  | nil => rfl
  | cons hd tl ih =>
    obtain ⟨name, c⟩ := hd
    cases hm : c.message with
    | none =>
      simp [tsEntryWrites, List.filter_cons, strTruthy, hm, ih]
    | some m =>
      by_cases he : m = ""
      · subst he
        simp [tsEntryWrites, List.filter_cons, strTruthy, hm, ih]
      · simp [tsEntryWrites, List.filter_cons, strTruthy, hm, he, ih, tsLine]

/-- Claim C10: the message-map and translation-stub loops write one
line for an entry exactly when its message is present and non-empty;
an absent message and an empty message are both skipped. -/
theorem dump_skip_iff_present_nonempty (entries : Registry) :
    (∀ o : Option String, strTruthy o = true ↔ ∃ m, o = some m ∧ m ≠ "") ∧
    messagesEntryWrites entries =
      (entries.filter fun p => strTruthy p.2.message).map
        (fun p => msgLine p.2) ∧
    tsEntryWrites entries =
      (entries.filter fun p => strTruthy p.2.message).map
        (fun p => tsLine p.2) := by
  refine ⟨?_, messagesEntryWrites_eq entries, tsEntryWrites_eq entries⟩
  intro o
  cases o with
  | none => simp [strTruthy]
  | some m => simp [strTruthy]

/-- Claim C6 counterexample: an entry whose message is the empty string
has a non-absent message, yet both dumps write no line for it — the
message-map output is just its header and footer, and the
translation-stub output is just its header. -/
theorem dump_messages_empty_string_counterexample :
    (⟨5, 0, some ""⟩ : Code).message ≠ none ∧
    dump_cpp_messages [("E", ⟨5, 0, some ""⟩)] =
      "// Generated error code to message mapping\n" ++
      "static QMap<int, QString> error_messages\x7b\n" ++ "\x7d;\n" ∧
    dump_cpp_ts [("E", ⟨5, 0, some ""⟩)] =
      "// Generated translation string definitions for all defined error messages\n" :=
  ⟨by simp, rfl, rfl⟩

/-- Claim C6 (amended): the two dumps write exactly one line per entry
whose message is present and non-empty, and zero lines for an entry
whose message is absent or empty; the skip is silent, both dumps being
total functions with no error outcome. -/
theorem dump_line_counts (entries : Registry) :
    (messagesEntryWrites entries).length =
      (entries.filter fun p => strTruthy p.2.message).length ∧
    (tsEntryWrites entries).length =
      (entries.filter fun p => strTruthy p.2.message).length ∧
    (∀ p ∈ entries, (p.2.message = none ∨ p.2.message = some "") →
      strTruthy p.2.message = false) := by
  refine ⟨?_, ?_, ?_⟩
  · rw [messagesEntryWrites_eq]; exact List.length_map _ _
  · rw [tsEntryWrites_eq]; exact List.length_map _ _
  · rintro p _ (hm | hm) <;> rw [hm] <;> rfl

/-- Witness for Claim C6 on a two-entry registry: one message-bearing
entry, one absent-message entry, one line each. -/
theorem dump_line_counts_witness :
    (messagesEntryWrites
        [("A", ⟨1, 1, some "bad motor"⟩), ("B", ⟨5, 0, none⟩)]).length =
      (([("A", (⟨1, 1, some "bad motor"⟩ : Code)), ("B", ⟨5, 0, none⟩)] :
          Registry).filter fun p => strTruthy p.2.message).length ∧
    strTruthy (Option.none : Option String) = false :=
  ⟨(dump_line_counts
      [("A", ⟨1, 1, some "bad motor"⟩), ("B", ⟨5, 0, none⟩)]).1,
    (dump_line_counts
      [("A", ⟨1, 1, some "bad motor"⟩), ("B", ⟨5, 0, none⟩)]).2.2
      ("B", ⟨5, 0, none⟩) (by simp) (Or.inl rfl)⟩

/-- Claim C8: the enum dump is its header line, the enum class Errors
opening line, one member line per entry (message-bearing or not) of the
form tab, name, equals, identifier, semicolon, and the closing line. -/
theorem dump_cpp_enum_spec (entries : Registry) :
    dump_cpp_enum entries =
      "// Generated error code enum\n" ++
      "enum class Errors \x7b\n" ++
      String.join (entries.map fun p =>
        "\t" ++ p.1 ++ " = " ++ toString p.2.code ++ ";\n") ++
      "\x7d;\n" ∧
    (enumEntryWrites entries).length = entries.length := by
  constructor
  · unfold dump_cpp_enum
    rw [enumEntryWrites_eq]
  · rw [enumEntryWrites_eq]; exact List.length_map _ _

/-- Inserting a key that is not yet in a Python dict appends it. -/
theorem dictUpd_fresh (d : List (String × JEntry)) (k : String) (v : JEntry)
    (h : ∀ p ∈ d, p.1 ≠ k) : dictUpd d k v = d ++ [(k, v)] := by
  have hany : d.any (fun p => p.1 == k) = false := by
    rw [List.any_eq_false]
    intro p hp
    simpa using h p hp
  simp [dictUpd, hany]

/-- The dict comprehension of dump_json, run from an accumulator whose
keys avoid every remaining lower-cased name, appends one pair per entry
when the remaining lower-cased names are pairwise distinct. -/
theorem dump_json_obj_go (l : Registry) :
    ∀ d : List (String × JEntry),
      (l.map fun p => pyLower p.1).Nodup →
      (∀ q ∈ d, ∀ p ∈ l, q.1 ≠ pyLower p.1) →
      l.foldl (fun d p => dictUpd d (pyLower p.1) (p.2.code, p.2.message)) d =
        d ++ l.map fun p => (pyLower p.1, (p.2.code, p.2.message)) := by
  induction l with
  | nil => intro d _ _; simp
  | cons hd tl ih =>
    intro d hnd hdisj
    have hhd : pyLower hd.1 ∉ tl.map fun p => pyLower p.1 :=
      (List.nodup_cons.mp (by simpa using hnd)).1
    simp only [List.foldl_cons]
    rw [dictUpd_fresh d (pyLower hd.1) _
      (fun p hp => hdisj p hp hd (List.mem_cons_self _ _))]
    rw [ih (d ++ [(pyLower hd.1, (hd.2.code, hd.2.message))])
      (List.nodup_cons.mp (by simpa using hnd)).2 ?_]
    · simp
    · intro q hq p hp
      rcases List.mem_append.mp hq with hq | hq
      · exact hdisj q hq p (List.mem_cons_of_mem _ hp)
      · have hq1 : q.1 = pyLower hd.1 := by
          simp only [List.mem_singleton] at hq
          rw [hq]
        rw [hq1]
        intro hc
        exact hhd (hc ▸ List.mem_map_of_mem (fun p => pyLower p.1) hp)

/-- Claim C7 counterexample: two distinct entry names that agree after
lower-casing collapse to a single JSON key, whose value comes from the
later entry, so the object does not have one key per entry. -/
theorem dump_json_obj_counterexample :
    ([("FOO", (⟨1, 1, some "A"⟩ : Code)), ("Foo", ⟨2, 1, some "B"⟩)] :
        Registry).length = 2 ∧
    dump_json_obj [("FOO", ⟨1, 1, some "A"⟩), ("Foo", ⟨2, 1, some "B"⟩)] =
      [("foo", (201, some "B"))] := ⟨rfl, rfl⟩

/-- Claim C7 (amended): when the lower-cased entry names are pairwise
distinct, dump_json produces one key per entry in declaration order,
the key being the lower-cased name, with field code the identifier and
field message the message or null; names that collide after
lower-casing collapse to one key. -/
theorem dump_json_obj_spec (entries : Registry)
    (h : (entries.map fun p => pyLower p.1).Nodup) :
    dump_json_obj entries =
      entries.map fun p => (pyLower p.1, (p.2.code, p.2.message)) := by
  unfold dump_json_obj
  rw [dump_json_obj_go entries [] h (by simp)]
  simp

/-- Witness for Claim C7: the spec's example registry, keys foo and
bar, codes 101 and 500, message bad motor and null. -/
theorem dump_json_obj_spec_witness :
    dump_json_obj [("FOO", ⟨1, 1, some "bad motor"⟩), ("BAR", ⟨5, 0, none⟩)] =
      [("foo", (101, some "bad motor")), ("bar", (500, none))] :=
  (dump_json_obj_spec
    [("FOO", ⟨1, 1, some "bad motor"⟩), ("BAR", ⟨5, 0, none⟩)]
    (by decide)).trans rfl

end SL1
